import Mathlib

/-!
Verification of the replication protocol and entity-mapping reconciliation
engine of a client/server multiplayer simulation (Rust, bevy + renet).

The embedding models the two reconciliation loops:
  * `src/bin/server.rs` — server authority store, lobby, connect/disconnect
    handling, command execution, removal-detection broadcast systems,
    collision resolution, and snapshot production;
  * `src/bin/client.rs` — the client reconciliation store (`NetworkMapping`,
    `ClientLobby`) and the message-processing loop `client_sync_players`.

Positions (`f32` 3-vectors in the source) are modelled as triples of
rationals; entity ids and client ids (bevy `Entity`, `u64`) are modelled as
naturals — the source only ever tests them for equality and uses them as
map keys.  `HashMap` is modelled as an association list whose insert
replaces any existing entry for the key and whose remove erases the key,
matching `HashMap::insert` / `HashMap::remove` observational behaviour.
-/

set_option autoImplicit false

namespace Playground

/-- A 3-component position vector (`Vec3` in the source), over ℚ. -/
structure Vec3 where
  x : ℚ
  y : ℚ
  z : ℚ
deriving DecidableEq, Repr

def vzero : Vec3 := ⟨0, 0, 0⟩

def vadd (a b : Vec3) : Vec3 := ⟨a.x + b.x, a.y + b.y, a.z + b.z⟩

def vsub (a b : Vec3) : Vec3 := ⟨a.x - b.x, a.y - b.y, a.z - b.z⟩

def smul (k : ℚ) (v : Vec3) : Vec3 := ⟨k * v.x, k * v.y, k * v.z⟩

/-- Squared euclidean norm of a vector. -/
def normSq (v : Vec3) : ℚ := v.x * v.x + v.y * v.y + v.z * v.z

/-- Relational embedding of glam `Vec3::normalize_or_zero`, which the server
calls on `cast_at - player_translation`: the result is the zero vector when
the argument is zero (or not normalizable), and otherwise the argument
divided by its (irrational, hence relationally specified) length `k`. -/
def NormalizesTo (v u : Vec3) : Prop :=
  (v = vzero ∧ u = vzero) ∨ ∃ k : ℚ, 0 < k ∧ k * k = normSq v ∧ smul k u = v

/-- The reliable-channel server→client message enum `ServerMessages` of the
shared library, with the exact variants and fields matched by both
`server.rs` and `client.rs`. -/
inductive ServerMessages where
  | playerCreate (id : ℕ) (entity : ℕ) (translation : Vec3)
  | playerRemove (id : ℕ)
  | spawnProjectile (entity : ℕ) (translation : Vec3)
  | despawnProjectile (entity : ℕ)
  | spawnSolanaBlock (entity : ℕ) (transform : Vec3) (slot : ℕ)
  | despawnSolanaBlock (entity : ℕ)
deriving DecidableEq, Repr

/-- The unreliable-channel snapshot message `NetworkedEntities`: a vector of
entity ids and a parallel vector of translations, built by two `push`es per
queried entity in `server_network_sync`. -/
structure NetworkedEntities where
  entities : List ℕ
  translations : List Vec3
deriving DecidableEq, Repr

/-! ### Association-list model of `HashMap` -/

/-- `HashMap` lookup: first (= only, under the no-duplicate-keys invariant)
entry for the key. -/
def alLookup {α : Type} (k : ℕ) : List (ℕ × α) → Option α
  | [] => none
  | p :: rest => if p.1 = k then some p.2 else alLookup k rest

/-- `HashMap::remove`: erase every entry for the key (there is at most one
under the invariant). -/
def alErase {α : Type} (k : ℕ) : List (ℕ × α) → List (ℕ × α)
  | [] => []
  | p :: rest => if p.1 = k then alErase k rest else p :: alErase k rest

/-- `HashMap::insert`: replace any existing entry for the key. -/
def alInsert {α : Type} (k : ℕ) (v : α) (m : List (ℕ × α)) : List (ℕ × α) :=
  (k, v) :: alErase k m

/-! ### Server authority store -/

/-- The replication-relevant category tag of a server entity: the `Player`,
`Projectile` and `SolanaSlotBlock` components of the source (exactly one
per replicated entity as constructed by the server). -/
inductive STag where
  | player (cid : ℕ)
  | projectile
  | solanaBlock (slot : ℕ)
deriving DecidableEq, Repr

def STag.isPlayerB : STag → Bool
  | .player _ => true
  | _ => false

/-- A server-side replicated entity: id, category tag, current translation. -/
structure SEntity where
  eid : ℕ
  tag : STag
  pos : Vec3
deriving DecidableEq, Repr

/-- `Query<(Entity, &Player, &Transform)>` iteration: the player entities of
the world, each yielding its owning client id. -/
def playersOf (world : List SEntity) : List (ℕ × ℕ × Vec3) :=
  world.filterMap fun e =>
    match e.tag with
    | .player pid => some (pid, e.eid, e.pos)
    | _ => none

/-- Result of handling one `ServerEvent::ClientConnected` in
`server_update_system`. -/
structure ConnectResult where
  toNewPeer : List ServerMessages
  broadcast : List ServerMessages
  world : List SEntity
  lobby : List (ℕ × ℕ)
deriving Repr

/-- `server_update_system`, `ClientConnected` arm: send one `PlayerCreate`
per pre-existing entity of the `players` query directly to the new peer,
spawn a `Player` entity for the new client at `spawnPos` (random in the
source), insert it into the lobby, and broadcast its `PlayerCreate`. -/
def handleClientConnected (world : List SEntity) (lobby : List (ℕ × ℕ))
    (cid : ℕ) (spawnPos : Vec3) (newEid : ℕ) : ConnectResult :=
  { toNewPeer := (playersOf world).map fun p => .playerCreate p.1 p.2.1 p.2.2
    broadcast := [.playerCreate cid newEid spawnPos]
    world := world ++ [⟨newEid, .player cid, spawnPos⟩]
    lobby := alInsert cid newEid lobby }

/-- Despawn a server entity (`commands.entity(e).despawn()`). -/
def despawnServer (eid : ℕ) : List SEntity → List SEntity
  | [] => []
  | e :: rest => if e.eid = eid then despawnServer eid rest else e :: despawnServer eid rest

/-- Result of handling one `ServerEvent::ClientDisconnected`. -/
structure DisconnectResult where
  broadcast : List ServerMessages
  world : List SEntity
  lobby : List (ℕ × ℕ)
deriving Repr

/-- `server_update_system`, `ClientDisconnected` arm: remove the lobby
entry, despawn its player entity when the entry existed, and broadcast
`PlayerRemove` for the client id. -/
def handleClientDisconnected (world : List SEntity) (lobby : List (ℕ × ℕ))
    (cid : ℕ) : DisconnectResult :=
  { broadcast := [.playerRemove cid]
    world := match alLookup cid lobby with
             | some pe => despawnServer pe world
             | none => world
    lobby := alErase cid lobby }

/-- The two-step `cast_at` clamp of the `BasicAttack` arm:
`cast_at[1] = player_transform.translation[1]`. -/
def clampY (castAt t : Vec3) : Vec3 := ⟨castAt.x, t.y, castAt.z⟩

/-- The projectile spawn translation of the `BasicAttack` arm:
`translation = player + direction * 0.7` followed by `translation[1] = 1.0`. -/
def fireballTranslation (t dir : Vec3) : Vec3 :=
  let tr := vadd t (smul (7 / 10) dir)
  ⟨tr.x, 1, tr.z⟩

/-- `server_update_system`, `PlayerCommand::BasicAttack` arm, for one
received command: look the client up in the lobby, fetch its player entity
from the `players` query, then spawn one fireball at `fireballTranslation`
and broadcast the single matching `SpawnProjectile`.  `dir` stands for
`(cast_at - player_translation).normalize_or_zero()` computed after the
`clampY` mutation of `cast_at`; the theorems constrain it by
`NormalizesTo (vsub (clampY castAt playerPos) playerPos) dir`. -/
def handleBasicAttack (world : List SEntity) (lobby : List (ℕ × ℕ))
    (cid : ℕ) (dir : Vec3) (newEid : ℕ) :
    List ServerMessages × List SEntity :=
  match alLookup cid lobby with
  | none => ([], world)
  | some pe =>
    match world.find? (fun e => e.eid == pe && e.tag.isPlayerB) with
    | none => ([], world)
    | some e =>
      ([.spawnProjectile newEid (fireballTranslation e.pos dir)],
       world ++ [⟨newEid, .projectile, fireballTranslation e.pos dir⟩])

/-- A rapier `CollisionEvent` as consumed by `projectile_collision_system`. -/
inductive CollisionEvent where
  | started (e1 e2 : ℕ)
  | stopped (e1 e2 : ℕ)
deriving DecidableEq, Repr

/-- `Query<Option<&Projectile>>::get(e)` returns `Ok(Some(_))` iff the
entity is live and carries the `Projectile` component. -/
def isProjectileAt (world : List SEntity) (e : ℕ) : Bool :=
  world.any fun s => s.eid == e &&
    (match s.tag with | .projectile => true | _ => false)

/-- `Query<Option<&SolanaSlotBlock>>::get(e)` returns `Ok(Some(_))` iff the
entity is live and carries the `SolanaSlotBlock` component. -/
def isSolanaAt (world : List SEntity) (e : ℕ) : Bool :=
  world.any fun s => s.eid == e &&
    (match s.tag with | .solanaBlock _ => true | _ => false)

/-- `projectile_collision_system` for one collision event, returning the
list of entities it despawns.  Transcribed exactly: the first branch tests
entity1 for `Projectile` and then tests *entity1* (not entity2) for
`SolanaSlotBlock` before despawning entity2; the second branch tests
entity2 for `Projectile` and entity1 for `SolanaSlotBlock` before
despawning entity1. -/
def projectileCollisionSystem (world : List SEntity) (ev : CollisionEvent) : List ℕ :=
  match ev with
  | .stopped _ _ => []
  | .started e1 e2 =>
    (if isProjectileAt world e1 && isSolanaAt world e1 then [e2] else []) ++
    (if isProjectileAt world e2 && isSolanaAt world e1 then [e1] else [])

/-- `projectile_on_removal_system`: one reliable `DespawnProjectile`
broadcast per entity reported by `RemovedComponents<Projectile>` this
tick. -/
def projectileOnRemovalSystem (removed : List ℕ) : List ServerMessages :=
  removed.map fun e => .despawnProjectile e

/-- `solana_block_on_removal_system`: one reliable `DespawnSolanaBlock`
broadcast per entity reported by `RemovedComponents<SolanaSlotBlock>` this
tick. -/
def solanaBlockOnRemovalSystem (removed : List ℕ) : List ServerMessages :=
  removed.map fun e => .despawnSolanaBlock e

/-- `server_network_sync`: build one `NetworkedEntities` snapshot by
pushing, for every entity matched by
`Or<(With<Player>, With<Projectile>, With<SolanaSlotBlock>)>`, its id onto
`entities` and its translation onto `translations`. -/
def buildNetworkedEntities (world : List SEntity) : NetworkedEntities :=
  { entities := world.map (·.eid)
    translations := world.map (·.pos) }

/-! ### Client reconciliation store -/

/-- A client-side local entity: its local id, its transform translation and
whether it carries the `ControlledPlayer` marker component. -/
structure CEntity where
  eid : ℕ
  pos : Vec3
  controlled : Bool
deriving DecidableEq, Repr

/-- `ClientLobby` entry payload `PlayerInfo`. -/
structure PlayerInfo where
  client_entity : ℕ
  server_entity : ℕ
deriving DecidableEq, Repr

/-- The whole client reconciliation store: local world, `ClientLobby`,
`NetworkMapping` (server entity id → local entity id), and the allocator
for fresh local entity ids (`commands.spawn`). -/
structure ClientState where
  world : List CEntity
  lobby : List (ℕ × PlayerInfo)
  mapping : List (ℕ × ℕ)
  nextEid : ℕ
deriving DecidableEq, Repr

def initClientState : ClientState := ⟨[], [], [], 0⟩

/-- Despawn a local entity (`commands.entity(e).despawn()`). -/
def despawnLocal (eid : ℕ) : List CEntity → List CEntity
  | [] => []
  | c :: rest => if c.eid = eid then despawnLocal eid rest else c :: despawnLocal eid rest

/-- Overwrite the transform of the local entity `ce`
(`commands.entity(ce).insert(transform)`). -/
def setPos (ce : ℕ) (t : Vec3) : List CEntity → List CEntity
  | [] => []
  | c :: rest =>
    (if c.eid = ce then { c with pos := t } else c) :: setPos ce t rest

/-- The local entities with a given local id (used to state which part of
the world a snapshot write may touch). -/
def entriesAt (ce : ℕ) : List CEntity → List CEntity
  | [] => []
  | c :: rest => if c.eid = ce then c :: entriesAt ce rest else entriesAt ce rest

/-- One iteration of the reliable-channel loop of `client_sync_players`:
process a single `ServerMessages` value against the client store.
`clientId` is `transport.client_id()`. -/
def processServerMessage (clientId : ℕ) (st : ClientState) :
    ServerMessages → ClientState
  | .playerCreate id entity translation =>
    let ce := st.nextEid
    { world := st.world ++ [⟨ce, translation, clientId = id⟩]
      lobby := alInsert id ⟨ce, entity⟩ st.lobby
      mapping := alInsert entity ce st.mapping
      nextEid := st.nextEid + 1 }
  | .playerRemove id =>
    match alLookup id st.lobby with
    | some info =>
      { st with
        lobby := alErase id st.lobby
        world := despawnLocal info.client_entity st.world
        mapping := alErase info.server_entity st.mapping }
    | none => { st with lobby := alErase id st.lobby }
  | .spawnProjectile entity translation =>
    { st with
      world := st.world ++ [⟨st.nextEid, translation, false⟩]
      mapping := alInsert entity st.nextEid st.mapping
      nextEid := st.nextEid + 1 }
  | .despawnProjectile entity =>
    match alLookup entity st.mapping with
    | some ce =>
      { st with
        world := despawnLocal ce st.world
        mapping := alErase entity st.mapping }
    | none => st
  | .spawnSolanaBlock entity transform slot =>
    let _ := slot
    { st with
      world := st.world ++ [⟨st.nextEid, transform, false⟩]
      mapping := alInsert entity st.nextEid st.mapping
      nextEid := st.nextEid + 1 }
  | .despawnSolanaBlock entity =>
    match alLookup entity st.mapping with
    | some ce =>
      { st with
        world := despawnLocal ce st.world
        mapping := alErase entity st.mapping }
    | none => st

/-- The unreliable-channel loop body of `client_sync_players`: for each
index `i` below `entities.len()`, if `entities[i]` is in the mapping,
overwrite the transform of the mapped local entity with `translations[i]`; an
unmapped id is skipped.  The Rust indexing `translations[i]` panics when
out of bounds, modelled by `none`; it is only evaluated for mapped ids. -/
def applySnapshot (m : List (ℕ × ℕ)) :
    List CEntity → List ℕ → List Vec3 → Option (List CEntity)
  | w, [], _ => some w
  | w, sid :: es, ts =>
    match alLookup sid m with
    | none => applySnapshot m w es ts.tail
    | some ce =>
      match ts with
      | [] => none
      | t :: ts2 => applySnapshot m (setPos ce t w) es ts2

/-- Processing one whole `NetworkedEntities` snapshot against the client
store: only the local world is touched. -/
def processSnapshot (st : ClientState) (ne : NetworkedEntities) :
    Option ClientState :=
  (applySnapshot st.mapping st.world ne.entities ne.translations).map
    fun w2 => { st with world := w2 }

/-! ### Concrete sample data used by counterexamples and witnesses -/

/-- A server world with three live players and one WorldBlock. -/
def c1World : List SEntity :=
  [⟨1, .player 10, ⟨0, 0, 0⟩⟩, ⟨2, .player 11, ⟨1, 0, 0⟩⟩,
   ⟨3, .player 12, ⟨2, 0, 0⟩⟩, ⟨4, .solanaBlock 99, ⟨0, 20, 0⟩⟩]

/-- A client store knowing server entity 100 as local entity 5. -/
def c3State : ClientState := ⟨[⟨5, ⟨0, 0, 0⟩, false⟩], [], [(100, 5)], 6⟩

/-- A snapshot carrying one mapped id (100) and one unmapped id (200). -/
def c3Snap : NetworkedEntities := ⟨[100, 200], [⟨1, 2, 3⟩, ⟨4, 4, 4⟩]⟩

/-- The client store of client 7 after receiving its own PlayerCreate. -/
def c4State : ClientState :=
  processServerMessage 7 initClientState (.playerCreate 7 100 ⟨0, 0, 0⟩)

/-- A snapshot referencing server entity 100 of the controlled player. -/
def c4Snap : NetworkedEntities := ⟨[100], [⟨1, 2, 3⟩]⟩

/-- A server world with one player (entity 1) owned by client 0. -/
def c6World : List SEntity := [⟨1, .player 0, ⟨0, 51 / 100, 0⟩⟩]

def c6Lobby : List (ℕ × ℕ) := [(0, 1)]

/-- A server world with a projectile (entity 1) and a WorldBlock
(entity 2). -/
def c7World : List SEntity := [⟨1, .projectile, vzero⟩, ⟨2, .solanaBlock 9, vzero⟩]

/-- A client store mapping server entity 7 only. -/
def c8State : ClientState := ⟨[⟨0, vzero, false⟩], [], [(7, 0)], 1⟩

/-- A client store with a duplicate-free two-entry mapping. -/
def c9State : ClientState := ⟨[], [], [(1, 0), (2, 5)], 6⟩

/-! ### Association-list lemmas -/

theorem alLookup_alInsert_self {α : Type} (k : ℕ) (v : α) (m : List (ℕ × α)) :
    alLookup k (alInsert k v m) = some v := by
  simp [alInsert, alLookup]

theorem alLookup_alErase_self {α : Type} (k : ℕ) (m : List (ℕ × α)) :
    alLookup k (alErase k m) = none := by
  induction m with
  | nil => rfl
  | cons p rest ih =>
    by_cases h : p.1 = k <;> simp [alErase, alLookup, h, ih]

theorem not_mem_alErase_keys {α : Type} (k : ℕ) (m : List (ℕ × α)) :
    k ∉ (alErase k m).map Prod.fst := by
  induction m with
  | nil => simp [alErase]
  | cons p rest ih =>
    by_cases h : p.1 = k <;> simp [alErase, h, ih]
    exact fun hk => h hk.symm

theorem alErase_keys_sublist {α : Type} (k : ℕ) (m : List (ℕ × α)) :
    List.Sublist ((alErase k m).map Prod.fst) (m.map Prod.fst) := by
  induction m with
  | nil => simp [alErase]
  | cons p rest ih =>
    by_cases h : p.1 = k
    · simp only [alErase, h, if_pos rfl, List.map_cons]
      exact ih.trans (List.sublist_cons_self _ _)
    · simp only [alErase, h, if_neg h, List.map_cons]
      exact ih.cons₂ p.1

theorem alErase_keys_nodup {α : Type} (k : ℕ) (m : List (ℕ × α))
    (h : (m.map Prod.fst).Nodup) : ((alErase k m).map Prod.fst).Nodup :=
  (alErase_keys_sublist k m).nodup h

theorem alInsert_keys_nodup {α : Type} (k : ℕ) (v : α) (m : List (ℕ × α))
    (h : (m.map Prod.fst).Nodup) : ((alInsert k v m).map Prod.fst).Nodup := by
  simp only [alInsert, List.map_cons]
  exact List.nodup_cons.mpr ⟨not_mem_alErase_keys k m, alErase_keys_nodup k m h⟩

theorem alInsert_keys_count {α : Type} (k : ℕ) (v : α) (m : List (ℕ × α)) :
    ((alInsert k v m).map Prod.fst).count k = 1 := by
  simp only [alInsert, List.map_cons, List.count_cons,
    List.count_eq_zero_of_not_mem (not_mem_alErase_keys k m)]
  simp

/-! ### Local-world lemmas -/

theorem despawnServer_eid (eid : ℕ) (w : List SEntity) :
    ∀ e ∈ despawnServer eid w, e.eid ≠ eid := by
  induction w with
  | nil => simp [despawnServer]
  | cons c rest ih =>
    by_cases h : c.eid = eid
    · simpa [despawnServer, h] using ih
    · intro e he
      simp only [despawnServer, if_neg h, List.mem_cons] at he
      rcases he with rfl | he
      · exact h
      · exact ih e he

theorem despawnLocal_eid (eid : ℕ) (w : List CEntity) :
    ∀ c ∈ despawnLocal eid w, c.eid ≠ eid := by
  induction w with
  | nil => simp [despawnLocal]
  | cons c rest ih =>
    by_cases h : c.eid = eid
    · simpa [despawnLocal, h] using ih
    · intro e he
      simp only [despawnLocal, if_neg h, List.mem_cons] at he
      rcases he with rfl | he
      · exact h
      · exact ih e he

theorem setPos_map_eid (ce : ℕ) (t : Vec3) (w : List CEntity) :
    (setPos ce t w).map CEntity.eid = w.map CEntity.eid := by
  induction w with
  | nil => rfl
  | cons c rest ih =>
    by_cases h : c.eid = ce <;> simp [setPos, h, ih]

theorem setPos_map_controlled (ce : ℕ) (t : Vec3) (w : List CEntity) :
    (setPos ce t w).map CEntity.controlled = w.map CEntity.controlled := by
  induction w with
  | nil => rfl
  | cons c rest ih =>
    by_cases h : c.eid = ce <;> simp [setPos, h, ih]

theorem mem_entriesAt (ce : ℕ) (w : List CEntity) (c : CEntity) :
    c ∈ entriesAt ce w ↔ c ∈ w ∧ c.eid = ce := by
  induction w with
  | nil => simp [entriesAt]
  | cons d rest ih =>
    by_cases h : d.eid = ce
    · simp only [entriesAt, if_pos h, List.mem_cons, ih]
      constructor
      · rintro (rfl | ⟨hc, hce⟩)
        · exact ⟨Or.inl rfl, h⟩
        · exact ⟨Or.inr hc, hce⟩
      · rintro ⟨rfl | hc, hce⟩
        · exact Or.inl rfl
        · exact Or.inr ⟨hc, hce⟩
    · simp only [entriesAt, if_neg h, List.mem_cons, ih]
      constructor
      · rintro ⟨hc, hce⟩
        exact ⟨Or.inr hc, hce⟩
      · rintro ⟨rfl | hc, hce⟩
        · exact absurd hce h
        · exact ⟨hc, hce⟩

theorem entriesAt_setPos_self (ce : ℕ) (t : Vec3) (w : List CEntity) :
    entriesAt ce (setPos ce t w) =
      (entriesAt ce w).map (fun c => { c with pos := t }) := by
  induction w with
  | nil => rfl
  | cons c rest ih =>
    by_cases h : c.eid = ce <;> simp [setPos, entriesAt, h, ih]

theorem entriesAt_setPos_ne (ce0 ce : ℕ) (h : ce0 ≠ ce) (t : Vec3)
    (w : List CEntity) : entriesAt ce (setPos ce0 t w) = entriesAt ce w := by
  have h2 : ce ≠ ce0 := Ne.symm h
  induction w with
  | nil => rfl
  | cons c rest ih =>
    by_cases hc : c.eid = ce0
    · simp [setPos, entriesAt, hc, h, ih]
    · by_cases hce : c.eid = ce <;> simp [setPos, entriesAt, hc, hce, h2, ih]

/-! ### Snapshot-application lemmas -/

theorem applySnapshot_total :
    ∀ (es : List ℕ) (ts : List Vec3) (m : List (ℕ × ℕ)) (w : List CEntity),
    es.length ≤ ts.length →
    ∃ w2, applySnapshot m w es ts = some w2 ∧
      w2.map CEntity.eid = w.map CEntity.eid ∧
      w2.map CEntity.controlled = w.map CEntity.controlled := by
  intro es
  induction es with
  | nil => exact fun ts m w _ => ⟨w, rfl, rfl, rfl⟩
  | cons sid es ih =>
    intro ts m w hlen
    cases ts with
    | nil => simp at hlen
    | cons t ts2 =>
      have hlen2 : es.length ≤ ts2.length := by
        simpa using Nat.le_of_succ_le_succ (by simpa using hlen)
      cases hl : alLookup sid m with
      | none =>
        rw [applySnapshot, hl]
        simpa using ih ts2 m w hlen2
      | some ce =>
        rw [applySnapshot, hl]
        obtain ⟨w2, h1, h2, h3⟩ := ih ts2 m (setPos ce t w) hlen2
        exact ⟨w2, h1, h2.trans (setPos_map_eid ce t w),
          h3.trans (setPos_map_controlled ce t w)⟩

theorem applySnapshot_untouched :
    ∀ (es : List ℕ) (ts : List Vec3) (m : List (ℕ × ℕ))
      (w w2 : List CEntity) (ce : ℕ),
    applySnapshot m w es ts = some w2 →
    (∀ sid ∈ es, alLookup sid m ≠ some ce) →
    entriesAt ce w2 = entriesAt ce w := by
  intro es
  induction es with
  | nil =>
    intro ts m w w2 ce h _
    injection h with h
    rw [← h]
  | cons sid es ih =>
    intro ts m w w2 ce h hno
    have hsid : alLookup sid m ≠ some ce := hno sid (List.mem_cons_self sid es)
    rw [applySnapshot] at h
    cases hl : alLookup sid m with
    | none =>
      rw [hl] at h
      exact ih ts.tail m w w2 ce h fun s2 hs2 => hno s2 (List.mem_cons_of_mem _ hs2)
    | some ce0 =>
      have hne : ce0 ≠ ce := fun hEq => hsid (by rw [hl, hEq])
      rw [hl] at h
      cases ts with
      | nil => exact absurd h (by simp)
      | cons t ts2 =>
        have hrec := ih ts2 m (setPos ce0 t w) w2 ce h
          fun s2 hs2 => hno s2 (List.mem_cons_of_mem _ hs2)
        rw [hrec, entriesAt_setPos_ne ce0 ce hne t w]

theorem applySnapshot_writes :
    ∀ (es : List ℕ) (ts : List Vec3) (m : List (ℕ × ℕ))
      (w w2 : List CEntity) (sid : ℕ) (t : Vec3) (ce : ℕ),
    applySnapshot m w es ts = some w2 →
    (sid, t) ∈ es.zip ts →
    alLookup sid m = some ce →
    es.count sid = 1 →
    (∀ s2 ∈ es, s2 ≠ sid → alLookup s2 m ≠ some ce) →
    entriesAt ce w2 = (entriesAt ce w).map fun c => { c with pos := t } := by
  intro es
  induction es with
  | nil =>
    intro ts m w w2 sid t ce _ hmem
    simp at hmem
  | cons sid0 es ih =>
    intro ts m w w2 sid t ce happ hmem hlook hcount hother
    cases ts with
    | nil => simp at hmem
    | cons t0 ts2 =>
      rw [applySnapshot] at happ
      have hmem2 : (sid, t) = (sid0, t0) ∨ (sid, t) ∈ es.zip ts2 := by
        simpa using hmem
      by_cases hs : sid0 = sid
      · subst hs
        have hzero : es.count sid0 = 0 := by
          rw [List.count_cons] at hcount
          simpa using hcount
        have hnotin : sid0 ∉ es := List.count_eq_zero.mp hzero
        have hpair : t = t0 := by
          rcases hmem2 with heq | htl
          · exact congrArg Prod.snd heq
          · exact absurd (List.of_mem_zip htl).1 hnotin
        subst hpair
        rw [hlook] at happ
        have huntouched : ∀ s2 ∈ es, alLookup s2 m ≠ some ce := by
          intro s2 hs2
          have hne : s2 ≠ sid0 := fun hEq => hnotin (hEq ▸ hs2)
          exact hother s2 (List.mem_cons_of_mem _ hs2) hne
        rw [applySnapshot_untouched es ts2 m (setPos ce t w) w2 ce happ huntouched,
          entriesAt_setPos_self]
      · have hpairtl : (sid, t) ∈ es.zip ts2 := by
          rcases hmem2 with heq | htl
          · exact absurd (congrArg Prod.fst heq).symm hs
          · exact htl
        have hcount2 : es.count sid = 1 := by
          rw [List.count_cons] at hcount
          simpa [hs] using hcount
        have hother2 : ∀ s2 ∈ es, s2 ≠ sid → alLookup s2 m ≠ some ce :=
          fun s2 hs2 => hother s2 (List.mem_cons_of_mem _ hs2)
        cases hl : alLookup sid0 m with
        | none =>
          rw [hl] at happ
          simp only [List.tail_cons] at happ
          exact ih ts2 m w w2 sid t ce happ hpairtl hlook hcount2 hother2
        | some ce0 =>
          have hne : ce0 ≠ ce := by
            intro hEq
            subst hEq
            exact hother sid0 (List.mem_cons_self _ _) hs hl
          rw [hl] at happ
          have hrec := ih ts2 m (setPos ce0 t0 w) w2 sid t ce happ hpairtl hlook
            hcount2 hother2
          rw [hrec, entriesAt_setPos_ne ce0 ce hne t0 w]

/-- Pointwise form of `applySnapshot_writes`: after the snapshot, the mapped
local entity has the snapshot position. -/
theorem applySnapshot_pos_write (es : List ℕ) (ts : List Vec3)
    (m : List (ℕ × ℕ)) (w w2 : List CEntity) (sid : ℕ) (t : Vec3) (ce : ℕ)
    (happ : applySnapshot m w es ts = some w2)
    (hmem : (sid, t) ∈ es.zip ts)
    (hlook : alLookup sid m = some ce)
    (hcount : es.count sid = 1)
    (hother : ∀ s2 ∈ es, s2 ≠ sid → alLookup s2 m ≠ some ce) :
    ∀ c ∈ w2, c.eid = ce → c.pos = t := by
  intro c hc hce
  have h1 : c ∈ entriesAt ce w2 := (mem_entriesAt ce w2 c).mpr ⟨hc, hce⟩
  rw [applySnapshot_writes es ts m w w2 sid t ce happ hmem hlook hcount hother] at h1
  obtain ⟨c0, _, hc0eq⟩ := List.mem_map.mp h1
  rw [← hc0eq]

/-! ### Further helper lemmas -/

theorem length_playersOf (w : List SEntity) :
    (playersOf w).length = w.countP fun e => e.tag.isPlayerB := by
  induction w with
  | nil => rfl
  | cons e rest ih =>
    cases htag : e.tag <;>
      simp [playersOf, List.filterMap_cons, List.countP_cons, htag,
        STag.isPlayerB, ih] <;>
      simpa [playersOf] using ih

theorem count_despawnProjectile (removed : List ℕ) (e : ℕ) :
    (projectileOnRemovalSystem removed).count (.despawnProjectile e)
      = removed.count e := by
  induction removed with
  | nil => rfl
  | cons a rest ih =>
    simp only [projectileOnRemovalSystem] at ih
    simp [projectileOnRemovalSystem, List.count_cons, ih]

theorem count_despawnSolanaBlock (removed : List ℕ) (e : ℕ) :
    (solanaBlockOnRemovalSystem removed).count (.despawnSolanaBlock e)
      = removed.count e := by
  induction removed with
  | nil => rfl
  | cons a rest ih =>
    simp only [solanaBlockOnRemovalSystem] at ih
    simp [solanaBlockOnRemovalSystem, List.count_cons, ih]

/-! ### Claim C1 -/

/-- C1 counterexample: a server world with 3 live players and 1 WorldBlock
holds 4 replicated entities, yet the connect handler sends only 3 catch-up
messages to the new peer (it iterates the `players` query only), not the 4
the claim requires. -/
theorem catchup_not_all_entities :
    c1World.length = 4 ∧
    (handleClientConnected c1World [] 13 ⟨0, 0, 0⟩ 5).toNewPeer.length = 3 ∧
    (3 : ℕ) ≠ 4 := by
  refine ⟨rfl, ?_, by decide⟩
  decide

/-- C1 amended: the catch-up sent directly to a newly accepted peer
consists of exactly one PlayerCreate per pre-existing Player entity —
pre-existing Projectile and WorldBlock entities get no catch-up message:
every catch-up message is the PlayerCreate of some live player, and every
live player gets one. -/
theorem catchup_players_only (world : List SEntity) (lobby : List (ℕ × ℕ))
    (cid : ℕ) (pos : Vec3) (newEid : ℕ) :
    ((handleClientConnected world lobby cid pos newEid).toNewPeer.length
        = world.countP fun e => e.tag.isPlayerB) ∧
    (∀ msg ∈ (handleClientConnected world lobby cid pos newEid).toNewPeer,
        ∃ e ∈ world, ∃ pid, e.tag = .player pid ∧
          msg = .playerCreate pid e.eid e.pos) ∧
    (∀ e ∈ world, ∀ pid, e.tag = .player pid →
        ServerMessages.playerCreate pid e.eid e.pos
          ∈ (handleClientConnected world lobby cid pos newEid).toNewPeer) := by
  refine ⟨?_, ?_, ?_⟩
  · simp only [handleClientConnected, List.length_map]
    exact length_playersOf world
  · intro msg hmsg
    simp only [handleClientConnected, List.mem_map] at hmsg
    obtain ⟨p, hp, rfl⟩ := hmsg
    simp only [playersOf, List.mem_filterMap] at hp
    obtain ⟨e, he, hfe⟩ := hp
    cases htag : e.tag with
    | player pid =>
      rw [htag] at hfe
      injection hfe with hfe
      exact ⟨e, he, pid, htag, by rw [← hfe]⟩
    | projectile => rw [htag] at hfe; exact absurd hfe (by simp)
    | solanaBlock slot => rw [htag] at hfe; exact absurd hfe (by simp)
  · intro e he pid htag
    simp only [handleClientConnected, List.mem_map]
    refine ⟨(pid, e.eid, e.pos), ?_, rfl⟩
    simp only [playersOf, List.mem_filterMap]
    exact ⟨e, he, by rw [htag]⟩

/-- C1 amended, exercised at the concrete 3-players-and-a-block world. -/
theorem catchup_players_only_witness :
    ((handleClientConnected c1World [] 13 vzero 5).toNewPeer.length
        = c1World.countP fun e => e.tag.isPlayerB) ∧
    ServerMessages.playerCreate 10 1 ⟨0, 0, 0⟩
      ∈ (handleClientConnected c1World [] 13 vzero 5).toNewPeer :=
  ⟨(catchup_players_only c1World [] 13 vzero 5).1,
   (catchup_players_only c1World [] 13 vzero 5).2.2
     ⟨1, .player 10, ⟨0, 0, 0⟩⟩ (by decide) 10 rfl⟩

/-! ### Claim C2 -/

/-- C2: every entity whose Projectile (resp. SolanaSlotBlock) component
removal is detected this tick gets exactly one matching DespawnProjectile
(resp. DespawnSolanaBlock) broadcast from the PostUpdate removal systems,
and the systems emit one message per removed entity. -/
theorem despawn_notification_coupling (removedP removedB : List ℕ) (e : ℕ)
    (hP : removedP.Nodup) (hB : removedB.Nodup) :
    ((projectileOnRemovalSystem removedP).length = removedP.length) ∧
    ((solanaBlockOnRemovalSystem removedB).length = removedB.length) ∧
    (e ∈ removedP →
      (projectileOnRemovalSystem removedP).count (.despawnProjectile e) = 1) ∧
    (e ∈ removedB →
      (solanaBlockOnRemovalSystem removedB).count (.despawnSolanaBlock e) = 1) := by
  refine ⟨by simp [projectileOnRemovalSystem],
    by simp [solanaBlockOnRemovalSystem], ?_, ?_⟩
  · intro he
    rw [count_despawnProjectile]
    exact List.count_eq_one_of_mem hP he
  · intro he
    rw [count_despawnSolanaBlock]
    exact List.count_eq_one_of_mem hB he

/-- C2, exercised on concrete removal lists. -/
theorem despawn_notification_coupling_witness :
    ([3, 4] : List ℕ).Nodup ∧
    (projectileOnRemovalSystem [3, 4]).count (.despawnProjectile 3) = 1 ∧
    (solanaBlockOnRemovalSystem [3, 9]).count (.despawnSolanaBlock 3) = 1 :=
  ⟨by decide,
   (despawn_notification_coupling [3, 4] [3, 9] 3 (by decide) (by decide)).2.2.1
     (by decide),
   (despawn_notification_coupling [3, 4] [3, 9] 3 (by decide) (by decide)).2.2.2
     (by decide)⟩

/-! ### Claim C3 -/

/-- C3: applying a NetworkedEntities snapshot never fails when the two
vectors are aligned, leaves the mapping, lobby and id allocator untouched,
creates and destroys no local entity, overwrites the position of the local
entity mapped by each snapshot identifier with the snapshot position, and
leaves every local entity not targeted through the mapping exactly as it
was (unmapped identifiers are skipped). -/
theorem snapshot_skip_law (st : ClientState) (ne : NetworkedEntities)
    (hlen : ne.entities.length ≤ ne.translations.length) :
    ∃ st2, processSnapshot st ne = some st2
      ∧ st2.mapping = st.mapping
      ∧ st2.lobby = st.lobby
      ∧ st2.nextEid = st.nextEid
      ∧ st2.world.map CEntity.eid = st.world.map CEntity.eid
      ∧ (∀ sid t ce, (sid, t) ∈ ne.entities.zip ne.translations →
          alLookup sid st.mapping = some ce →
          ne.entities.count sid = 1 →
          (∀ s2 ∈ ne.entities, s2 ≠ sid → alLookup s2 st.mapping ≠ some ce) →
          ∀ c ∈ st2.world, c.eid = ce → c.pos = t)
      ∧ (∀ ce, (∀ sid ∈ ne.entities, alLookup sid st.mapping ≠ some ce) →
          entriesAt ce st2.world = entriesAt ce st.world) := by
  obtain ⟨w2, happ, heid, _⟩ :=
    applySnapshot_total ne.entities ne.translations st.mapping st.world hlen
  refine ⟨{ st with world := w2 }, ?_, rfl, rfl, rfl, heid, ?_, ?_⟩
  · simp [processSnapshot, happ]
  · intro sid t ce hmem hlook hcount hother
    exact applySnapshot_pos_write ne.entities ne.translations st.mapping
      st.world w2 sid t ce happ hmem hlook hcount hother
  · intro ce hno
    exact applySnapshot_untouched ne.entities ne.translations st.mapping
      st.world w2 ce happ hno

/-- C3, exercised at a concrete store and a snapshot holding one mapped
and one unmapped identifier. -/
theorem snapshot_skip_law_witness :
    c3Snap.entities.length ≤ c3Snap.translations.length ∧
    ∃ st2, processSnapshot c3State c3Snap = some st2
      ∧ st2.mapping = c3State.mapping
      ∧ st2.lobby = c3State.lobby
      ∧ st2.nextEid = c3State.nextEid
      ∧ st2.world.map CEntity.eid = c3State.world.map CEntity.eid
      ∧ (∀ sid t ce, (sid, t) ∈ c3Snap.entities.zip c3Snap.translations →
          alLookup sid c3State.mapping = some ce →
          c3Snap.entities.count sid = 1 →
          (∀ s2 ∈ c3Snap.entities, s2 ≠ sid →
            alLookup s2 c3State.mapping ≠ some ce) →
          ∀ c ∈ st2.world, c.eid = ce → c.pos = t)
      ∧ (∀ ce, (∀ sid ∈ c3Snap.entities, alLookup sid c3State.mapping ≠ some ce) →
          entriesAt ce st2.world = entriesAt ce c3State.world) :=
  ⟨by decide, snapshot_skip_law c3State c3Snap (by decide)⟩

/-! ### Claim C4 -/

/-- C4 counterexample: client 7 creates its own player from PlayerCreate
(tagged controlled, at the origin); applying a snapshot that references its
server entity 100 overwrites the position of the controlled entity to
(1,2,3), so the transform of the locally controlled player is not excluded from snapshot
overwrites. -/
theorem controlled_player_overwritten :
    (∃ c ∈ c4State.world, c.controlled = true ∧ c.pos = ⟨0, 0, 0⟩) ∧
    processSnapshot c4State c4Snap =
      some { c4State with world := [⟨0, ⟨1, 2, 3⟩, true⟩] } ∧
    (⟨1, 2, 3⟩ : Vec3) ≠ ⟨0, 0, 0⟩ := by
  refine ⟨?_, ?_, by decide⟩ <;> decide

/-- C4 amended: a PlayerCreate whose identifier equals the own
connection identifier of the client does tag the new local entity ControlledPlayer, but
snapshot application overwrites the position of every mapped local entity
uniformly — the ControlledPlayer tag does not exempt the controlled entity
from remote-position overwrites. -/
theorem controlled_player_not_exempt :
    (∀ (st : ClientState) (id sid : ℕ) (tr : Vec3),
      ∃ c ∈ (processServerMessage id st (.playerCreate id sid tr)).world,
        c.controlled = true ∧ c.eid = st.nextEid ∧ c.pos = tr) ∧
    (∀ (es : List ℕ) (ts : List Vec3) (m : List (ℕ × ℕ))
        (w w2 : List CEntity) (sid : ℕ) (t : Vec3) (ce : ℕ),
      applySnapshot m w es ts = some w2 →
      (sid, t) ∈ es.zip ts →
      alLookup sid m = some ce →
      es.count sid = 1 →
      (∀ s2 ∈ es, s2 ≠ sid → alLookup s2 m ≠ some ce) →
      ∀ c ∈ w2, c.controlled = true → c.eid = ce → c.pos = t) := by
  constructor
  · intro st id sid tr
    refine ⟨⟨st.nextEid, tr, true⟩, ?_, rfl, rfl, rfl⟩
    simp [processServerMessage]
  · intro es ts m w w2 sid t ce happ hmem hlook hcount hother c hc _ hce
    exact applySnapshot_pos_write es ts m w w2 sid t ce happ hmem hlook hcount
      hother c hc hce

/-- C4 amended, exercised at the own PlayerCreate of client 7 and at a concrete
snapshot write through the mapping onto the controlled entity. -/
theorem controlled_player_not_exempt_witness :
    (∃ c ∈ (processServerMessage 7 initClientState
        (.playerCreate 7 100 ⟨0, 0, 0⟩)).world,
      c.controlled = true ∧ c.eid = initClientState.nextEid ∧
        c.pos = ⟨0, 0, 0⟩) ∧
    (∀ c ∈ [(⟨0, ⟨1, 2, 3⟩, true⟩ : CEntity)], c.controlled = true →
      c.eid = 0 → c.pos = ⟨1, 2, 3⟩) :=
  ⟨(controlled_player_not_exempt).1 initClientState 7 100 ⟨0, 0, 0⟩,
   (controlled_player_not_exempt).2 [100] [⟨1, 2, 3⟩] [(100, 0)]
     [⟨0, ⟨0, 0, 0⟩, true⟩] [⟨0, ⟨1, 2, 3⟩, true⟩] 100 ⟨1, 2, 3⟩ 0
     (by decide) (by decide) (by decide) (by decide)
     (by intro s2 hs2 hne; simp at hs2; exact absurd hs2 hne)⟩

/-! ### Claim C5 -/

/-- C5: on a client disconnect the server drops the lobby entry, despawns
the player entity of that client and broadcasts exactly PlayerRemove with the
connection id; on receiving PlayerRemove the client drops the registry
entry, despawns the associated local entity and removes the server entity
id from its NetworkMapping. -/
theorem disconnect_cleanup :
    (∀ (world : List SEntity) (lobby : List (ℕ × ℕ)) (cid pe : ℕ),
      alLookup cid lobby = some pe →
      alLookup cid (handleClientDisconnected world lobby cid).lobby = none ∧
      (∀ e ∈ (handleClientDisconnected world lobby cid).world, e.eid ≠ pe) ∧
      (handleClientDisconnected world lobby cid).broadcast
        = [.playerRemove cid]) ∧
    (∀ (ccid : ℕ) (st : ClientState) (id : ℕ) (info : PlayerInfo),
      alLookup id st.lobby = some info →
      alLookup id (processServerMessage ccid st (.playerRemove id)).lobby
        = none ∧
      (∀ c ∈ (processServerMessage ccid st (.playerRemove id)).world,
        c.eid ≠ info.client_entity) ∧
      alLookup info.server_entity
        (processServerMessage ccid st (.playerRemove id)).mapping = none) := by
  constructor
  · intro world lobby cid pe h
    refine ⟨?_, ?_, rfl⟩
    · simp [handleClientDisconnected, alLookup_alErase_self]
    · simp only [handleClientDisconnected, h]
      exact despawnServer_eid pe world
  · intro ccid st id info h
    simp only [processServerMessage, h]
    exact ⟨alLookup_alErase_self id st.lobby,
      despawnLocal_eid info.client_entity st.world,
      alLookup_alErase_self info.server_entity st.mapping⟩

/-- C5, exercised at a concrete one-player server and a concrete client
store. -/
theorem disconnect_cleanup_witness :
    (alLookup 5 (handleClientDisconnected [⟨1, .player 5, vzero⟩]
        [(5, 1)] 5).lobby = none ∧
     (∀ e ∈ (handleClientDisconnected [⟨1, .player 5, vzero⟩]
        [(5, 1)] 5).world, e.eid ≠ 1) ∧
     (handleClientDisconnected [⟨1, .player 5, vzero⟩] [(5, 1)] 5).broadcast
        = [.playerRemove 5]) ∧
    (alLookup 5 (processServerMessage 9
        ⟨[⟨0, vzero, true⟩], [(5, ⟨0, 1⟩)], [(1, 0)], 1⟩
        (.playerRemove 5)).lobby = none ∧
     (∀ c ∈ (processServerMessage 9
        ⟨[⟨0, vzero, true⟩], [(5, ⟨0, 1⟩)], [(1, 0)], 1⟩
        (.playerRemove 5)).world, c.eid ≠ 0) ∧
     alLookup 1 (processServerMessage 9
        ⟨[⟨0, vzero, true⟩], [(5, ⟨0, 1⟩)], [(1, 0)], 1⟩
        (.playerRemove 5)).mapping = none) :=
  ⟨(disconnect_cleanup).1 [⟨1, .player 5, vzero⟩] [(5, 1)] 5 1 (by decide),
   (disconnect_cleanup).2 9 ⟨[⟨0, vzero, true⟩], [(5, ⟨0, 1⟩)], [(1, 0)], 1⟩
     5 ⟨0, 1⟩ (by decide)⟩

/-! ### Claim C6 -/

/-- C6 counterexample: the caster stands at (0, 0.51, 0) and aims at
(1, 7, 0); the horizontal-clamped normalized direction is (1, 0, 0), and
the single SpawnProjectile carries position (0.7, 1, 0) — the vertical
component is forced to the constant 1.0 by the handler, so the position is
not the caster position offset by 0.7 along the direction, which would be
(0.7, 0.51, 0). -/
theorem basic_attack_offset_cx :
    NormalizesTo (vsub (clampY ⟨1, 7, 0⟩ ⟨0, 51 / 100, 0⟩) ⟨0, 51 / 100, 0⟩)
      ⟨1, 0, 0⟩ ∧
    (handleBasicAttack c6World c6Lobby 0 ⟨1, 0, 0⟩ 2).1
      = [.spawnProjectile 2 ⟨7 / 10, 1, 0⟩] ∧
    vadd ⟨0, 51 / 100, 0⟩ (smul (7 / 10) ⟨1, 0, 0⟩) = ⟨7 / 10, 51 / 100, 0⟩ ∧
    (⟨7 / 10, 1, 0⟩ : Vec3) ≠ ⟨7 / 10, 51 / 100, 0⟩ := by
  refine ⟨Or.inr ⟨1, one_pos, ?_, ?_⟩, ?_, ?_, ?_⟩
  · norm_num [normSq, vsub, clampY]
  · norm_num [smul, vsub, clampY]
  · norm_num [handleBasicAttack, c6World, c6Lobby, alLookup, List.find?,
      STag.isPlayerB, fireballTranslation, vadd, smul]
  · norm_num [vadd, smul]
  · norm_num

/-- C6 amended: processing one BasicAttack from a lobby-registered client
whose player entity the query resolves broadcasts exactly one
SpawnProjectile; its horizontal components are the caster position
offset by the constant 0.7 along the clamped direction, while its vertical
component is set to the constant 1.0 (not kept at the caster height);
the clamped direction itself has no vertical component. -/
theorem basic_attack_offset (world : List SEntity) (lobby : List (ℕ × ℕ))
    (cid : ℕ) (castAt dir : Vec3) (newEid pe : ℕ) (e : SEntity)
    (hlobby : alLookup cid lobby = some pe)
    (hfind : world.find? (fun x => x.eid == pe && x.tag.isPlayerB) = some e)
    (hdir : NormalizesTo (vsub (clampY castAt e.pos) e.pos) dir) :
    (handleBasicAttack world lobby cid dir newEid).1
      = [.spawnProjectile newEid
          ⟨(vadd e.pos (smul (7 / 10) dir)).x, 1,
           (vadd e.pos (smul (7 / 10) dir)).z⟩] ∧
    dir.y = 0 := by
  constructor
  · simp [handleBasicAttack, hlobby, hfind, fireballTranslation]
  · rcases hdir with ⟨_, hz⟩ | ⟨k, hk, _, hsmul⟩
    · rw [hz]
      rfl
    · have hy : k * dir.y = 0 := by
        have hcy := congrArg Vec3.y hsmul
        simpa [smul, vsub, clampY] using hcy
      rcases mul_eq_zero.mp hy with hk0 | h0
      · exact absurd hk0 (ne_of_gt hk)
      · exact h0

/-- C6 amended, exercised at the concrete caster of `c6World`. -/
theorem basic_attack_offset_witness :
    (handleBasicAttack c6World c6Lobby 0 ⟨1, 0, 0⟩ 2).1
      = [.spawnProjectile 2
          ⟨(vadd ⟨0, 51 / 100, 0⟩ (smul (7 / 10) ⟨1, 0, 0⟩)).x, 1,
           (vadd ⟨0, 51 / 100, 0⟩ (smul (7 / 10) ⟨1, 0, 0⟩)).z⟩] ∧
    (⟨1, 0, 0⟩ : Vec3).y = 0 :=
  basic_attack_offset c6World c6Lobby 0 ⟨1, 7, 0⟩ ⟨1, 0, 0⟩ 2 1
    ⟨1, .player 0, ⟨0, 51 / 100, 0⟩⟩ (by decide)
    (by simp [c6World, List.find?, STag.isPlayerB])
    (Or.inr ⟨1, one_pos, by norm_num [normSq, vsub, clampY],
      by norm_num [smul, vsub, clampY]⟩)

/-! ### Claim C7 -/

/-- C7: the code contradicts the documented destroy-on-collision intent.
With a live projectile (entity 1) and a live WorldBlock (entity 2), a
Started collision event ordered (projectile, block) despawns nothing —
the first branch mistakenly re-tests entity1 instead of entity2 for the
SolanaSlotBlock component — while the same collision ordered
(block, projectile) does despawn the block. -/
theorem collision_block_not_destroyed :
    isProjectileAt c7World 1 = true ∧
    isSolanaAt c7World 2 = true ∧
    projectileCollisionSystem c7World (.started 1 2) = [] ∧
    projectileCollisionSystem c7World (.started 2 1) = [2] := by
  refine ⟨by decide, by decide, by decide, by decide⟩

/-! ### Claim C8 -/

/-- C8: a DespawnProjectile or DespawnSolanaBlock whose identifier is not
in the NetworkMapping leaves the whole client store (world, lobby, mapping,
allocator) unchanged — a no-op, not an error. -/
theorem despawn_unmapped_noop (cid : ℕ) (st : ClientState) (sid : ℕ)
    (h : alLookup sid st.mapping = none) :
    processServerMessage cid st (.despawnProjectile sid) = st ∧
    processServerMessage cid st (.despawnSolanaBlock sid) = st := by
  constructor <;> simp [processServerMessage, h]

/-- C8, exercised at a concrete store and the unmapped identifier 42. -/
theorem despawn_unmapped_noop_witness :
    alLookup 42 c8State.mapping = none ∧
    processServerMessage 0 c8State (.despawnProjectile 42) = c8State ∧
    processServerMessage 0 c8State (.despawnSolanaBlock 42) = c8State :=
  ⟨by decide, despawn_unmapped_noop 0 c8State 42 (by decide)⟩

/-! ### Claim C9 -/

/-- C9: message processing preserves duplicate-freedom of the
NetworkMapping keys, and each of the three spawn messages for an
identifier — already present or not — resolves that identifier to the
newly allocated local entity with the key occurring exactly once: the
insert overwrites, it never duplicates. -/
theorem network_mapping_at_most_once (cid : ℕ) (st : ClientState)
    (h : (st.mapping.map Prod.fst).Nodup) :
    (∀ msg, (((processServerMessage cid st msg).mapping).map Prod.fst).Nodup) ∧
    (∀ sid tr,
      alLookup sid (processServerMessage cid st
          (.spawnProjectile sid tr)).mapping = some st.nextEid ∧
      ((processServerMessage cid st
          (.spawnProjectile sid tr)).mapping.map Prod.fst).count sid = 1) ∧
    (∀ id sid tr,
      alLookup sid (processServerMessage cid st
          (.playerCreate id sid tr)).mapping = some st.nextEid ∧
      ((processServerMessage cid st
          (.playerCreate id sid tr)).mapping.map Prod.fst).count sid = 1) ∧
    (∀ sid tr slot,
      alLookup sid (processServerMessage cid st
          (.spawnSolanaBlock sid tr slot)).mapping = some st.nextEid ∧
      ((processServerMessage cid st
          (.spawnSolanaBlock sid tr slot)).mapping.map Prod.fst).count sid
        = 1) := by
  refine ⟨?_, ?_, ?_, ?_⟩
  · intro msg
    cases msg with
    | playerCreate id entity tr =>
      simpa [processServerMessage] using
        alInsert_keys_nodup entity st.nextEid st.mapping h
    | playerRemove id =>
      cases hl : alLookup id st.lobby with
      | some info =>
        simpa [processServerMessage, hl] using
          alErase_keys_nodup info.server_entity st.mapping h
      | none => simpa [processServerMessage, hl] using h
    | spawnProjectile entity tr =>
      simpa [processServerMessage] using
        alInsert_keys_nodup entity st.nextEid st.mapping h
    | despawnProjectile entity =>
      cases hl : alLookup entity st.mapping with
      | some ce =>
        simpa [processServerMessage, hl] using
          alErase_keys_nodup entity st.mapping h
      | none => simpa [processServerMessage, hl] using h
    | spawnSolanaBlock entity tr slot =>
      simpa [processServerMessage] using
        alInsert_keys_nodup entity st.nextEid st.mapping h
    | despawnSolanaBlock entity =>
      cases hl : alLookup entity st.mapping with
      | some ce =>
        simpa [processServerMessage, hl] using
          alErase_keys_nodup entity st.mapping h
      | none => simpa [processServerMessage, hl] using h
  · intro sid tr
    exact ⟨by simpa [processServerMessage] using
        alLookup_alInsert_self sid st.nextEid st.mapping,
      by simpa [processServerMessage] using
        alInsert_keys_count sid st.nextEid st.mapping⟩
  · intro id sid tr
    exact ⟨by simpa [processServerMessage] using
        alLookup_alInsert_self sid st.nextEid st.mapping,
      by simpa [processServerMessage] using
        alInsert_keys_count sid st.nextEid st.mapping⟩
  · intro sid tr slot
    exact ⟨by simpa [processServerMessage] using
        alLookup_alInsert_self sid st.nextEid st.mapping,
      by simpa [processServerMessage] using
        alInsert_keys_count sid st.nextEid st.mapping⟩

/-- C9, exercised at a concrete store: re-spawning already-present
identifier 1 leaves it mapped once, to the fresh local entity. -/
theorem network_mapping_at_most_once_witness :
    ((c9State.mapping.map Prod.fst).Nodup) ∧
    alLookup 1 (processServerMessage 0 c9State
        (.spawnProjectile 1 vzero)).mapping = some c9State.nextEid ∧
    ((processServerMessage 0 c9State
        (.spawnProjectile 1 vzero)).mapping.map Prod.fst).count 1 = 1 :=
  ⟨by decide,
   ((network_mapping_at_most_once 0 c9State (by decide)).2.1 1 vzero).1,
   ((network_mapping_at_most_once 0 c9State (by decide)).2.1 1 vzero).2⟩

/-! ### Claim C10 -/

/-- C10: every NetworkedEntities snapshot the server builds has entity and
translation vectors of equal length, and consequently the index-based
snapshot application of the client never goes out of bounds on it, for any
mapping and any local world. -/
theorem snapshot_vectors_aligned (world : List SEntity) :
    ((buildNetworkedEntities world).entities.length
        = (buildNetworkedEntities world).translations.length) ∧
    ∀ (m : List (ℕ × ℕ)) (cw : List CEntity),
      (applySnapshot m cw (buildNetworkedEntities world).entities
        (buildNetworkedEntities world).translations).isSome = true := by
  constructor
  · simp [buildNetworkedEntities]
  · intro m cw
    obtain ⟨w2, happ, _⟩ := applySnapshot_total
      (buildNetworkedEntities world).entities
      (buildNetworkedEntities world).translations m cw
      (by simp [buildNetworkedEntities])
    simp [happ]

end Playground
